import Mathlib

/-!
# websocktunnel client: connection retry loop and client state machine

A shallow embedding of `tools/websocktunnel/client/client.go`:

* `shouldRetry`, `isAuthError` : the classification of a failed dial;
* `connectWithRetry` : the retry loop, run against an environment that supplies
  the outcome of every dial and the timer that fires at every `select`;
* `New`, `Accept`, `Close`, `reconnect` : the operations of `Client`, together with
  a step function `step` in which each operation, and each goroutine the
  operations launch, is one atomic action.

Collaborators that live outside the file (the websocket dialer, the wsmux
session, the token check, the retry configuration) appear as parameters.
Logging is left out: it has no effect on any value the functions return.
-/

namespace client

/-! ## Data model -/

/-- The three values of `clientState`, in the order of the `iota` block. -/
inductive clientState
  | stateRunning
  | stateBroken
  | stateClosed
  deriving DecidableEq, Repr

/-- Modelled from the spec: the error values `ErrClientClosed`,
`ErrClientReconnecting`, `ErrAuthFailed`, `ErrRetryFailed` and `ErrRetryTimedOut`
that `client.go` uses are declared in another file of the package (the error
taxonomy of section 7 lists them as five distinct errors).  `other n` stands for
any error produced by a collaborator, such as the one a `Configurer` returns. -/
inductive Error
  | ErrClientClosed
  | ErrClientReconnecting
  | ErrAuthFailed
  | ErrRetryFailed
  | ErrRetryTimedOut
  | other (code : Nat)
  deriving DecidableEq, Repr

open clientState Error

/-- The fields of `RetryConfig` that `client.go` reads.  The type and its methods
`withDefaultValues` and `nextDelay` are declared in another file of the package;
the methods are parameters of the model (see `Env`).  Durations are natural
numbers of nanoseconds. -/
structure RetryConfig where
  InitialDelay : Nat
  MaxElapsedTime : Nat
  deriving DecidableEq, Repr

/-- The fields of `Config` other than the logger. -/
structure Config where
  ID : String
  TunnelAddr : String
  Token : String
  Retry : RetryConfig
  deriving DecidableEq, Repr

/-- The functions of other packages and files that `client.go` calls:
`util.IsTokenUsable`, `util.MakeWsURL`, `RetryConfig.withDefaultValues` and
`RetryConfig.nextDelay`. -/
structure Env where
  IsTokenUsable : String → Bool
  MakeWsURL : String → String
  withDefaultValues : RetryConfig → RetryConfig
  nextDelay : RetryConfig → Nat → Nat

/-- An `http.Response` as far as the client looks at it: the status code (a Go
`int`) and `Header.Get`. -/
structure Response where
  StatusCode : Int
  Header : String → String

/-- What one call of `websocket.DefaultDialer.Dial` returns: `(conn, res, nil)`, or
`(nil, res, err)` with `err != nil`, where `res` may be `nil`. -/
inductive DialOutcome
  | ok (conn : Nat) (res : Response)
  | fail (res : Option Response)

/-- Which case of the `select` on `maxTimer` and `backoff` is taken. -/
inductive Timer
  | maxTimer
  | backoff
  deriving DecidableEq, Repr

/-- The environment of one call of `connectWithRetry`: what `c.configurer()`
returns if it is called, what the `i`-th call of `Dial` returns (counting from 0)
and which timer fires at the `j`-th `select` (counting from 0). -/
structure Run where
  configurer : Except Error Config
  dial : Nat → DialOutcome
  wait : Nat → Timer

/-- What a call of `connectWithRetry` did, in order: a call of `Dial`, a `select`
that took the `maxTimer` case, a `select` that took the `backoff` case, and the
assignment `backoff = time.After(currentDelay)` with the new `currentDelay`. -/
inductive Event
  | dial
  | deadline
  | backoffFired
  | rearm (currentDelay : Nat)
  deriving DecidableEq, Repr

/-- A wsmux session as far as the client is concerned: the connection it wraps
(a pointer, so possibly `nil`), the `StreamBufferSize` of its `wsmux.Config`, and
whether `Close` was called on it. -/
structure Session where
  conn : Option Nat
  StreamBufferSize : Nat
  closed : Bool
  deriving DecidableEq, Repr

/-- The fields of `Client`.  `closed` is `true` once the channel `c.closed` has been
closed; `url` is the value stored in the `atomic.Value`; the mutex is modelled by
taking every critical section as one step; `configurer` is part of `Run`. -/
structure Client where
  id : String
  tunnelAddr : String
  token : String
  url : String
  retry : RetryConfig
  session : Option Session
  state : clientState
  closed : Bool
  acceptErr : Option Error
  deriving DecidableEq, Repr

/-! ## Classification of a failed dial -/

/-- The function `shouldRetry`: retry when there is no response, and on anything but a 4xx or
2xx response.  `/` on a Go `int` truncates toward zero. -/
def shouldRetry (r : Option Response) : Bool :=
  match r with
  | none => true
  | some r =>
    if r.StatusCode.tdiv 100 != 4 && r.StatusCode.tdiv 100 != 2 then true
    else false

/-- The function `isAuthError`: a response with status 401. -/
def isAuthError (r : Option Response) : Bool :=
  match r with
  | none => false
  | some r => r.StatusCode == 401

/-! ## connectWithRetry -/

/-- The method `Client.setConfig`. -/
def setConfig (env : Env) (c : Client) (config : Config) : Client :=
  { c with
    id := config.ID
    tunnelAddr := env.MakeWsURL config.TunnelAddr
    token := config.Token
    retry := env.withDefaultValues config.Retry }

/-- The triple `connectWithRetry` returns, and the events of the call. -/
structure ConnectResult where
  conn : Option Nat
  url : String
  err : Option Error
  trace : List Event
  deriving DecidableEq, Repr

/-- The local state of the `for` loop at the head of an iteration: how many dials
and selects have been made, `currentDelay`, and the events so far. -/
structure LoopState where
  dials : Nat
  waits : Nat
  currentDelay : Nat
  trace : List Event
  deriving DecidableEq, Repr

/-- The `for` loop of `connectWithRetry`; one unit of fuel is one iteration.
`none` means the loop is still running when the fuel is used up. -/
def dialLoop (env : Env) (run : Run) (retry : RetryConfig) :
    Nat → LoopState → Option ConnectResult
  | 0, _ => none
  | fuel + 1, st =>
    match run.dial st.dials with
    | .ok conn res =>
      some ⟨some conn, res.Header "x-websocktunnel-client-url", none,
        st.trace ++ [.dial]⟩
    | .fail res =>
      if !shouldRetry res then
        if isAuthError res then
          some ⟨none, "", some ErrAuthFailed, st.trace ++ [.dial]⟩
        else
          some ⟨none, "", some ErrRetryFailed, st.trace ++ [.dial]⟩
      else
        match run.wait st.waits with
        | .maxTimer =>
          some ⟨none, "", some ErrRetryTimedOut, st.trace ++ [.dial, .deadline]⟩
        | .backoff =>
          match run.dial (st.dials + 1) with
          | .ok conn res =>
            some ⟨some conn, res.Header "x-websocktunnel-client-url", none,
              st.trace ++ [.dial, .backoffFired, .dial]⟩
          | .fail res =>
            if !shouldRetry res then
              some ⟨none, "", some ErrRetryFailed,
                st.trace ++ [.dial, .backoffFired, .dial]⟩
            else
              dialLoop env run retry fuel
                { dials := st.dials + 2
                  waits := st.waits + 1
                  currentDelay := env.nextDelay retry st.currentDelay
                  trace := st.trace ++ [.dial, .backoffFired, .dial,
                    .rearm (env.nextDelay retry st.currentDelay)] }

/-- The method `Client.connectWithRetry`: the client after the call (its configuration is
replaced when the token is not usable) and the returned triple. -/
def connectWithRetry (env : Env) (run : Run) (fuel : Nat) (c : Client) :
    Option (Client × ConnectResult) :=
  if !env.IsTokenUsable c.token then
    match run.configurer with
    | .error err => some (c, ⟨none, "", some err, []⟩)
    | .ok config =>
      let c1 := setConfig env c config
      (dialLoop env run c1.retry fuel ⟨0, 0, c1.retry.InitialDelay, []⟩).map
        fun r => (c1, r)
  else
    (dialLoop env run c.retry fuel ⟨0, 0, c.retry.InitialDelay, []⟩).map
      fun r => (c, r)

/-- The number of `Dial` calls in a trace. -/
def dialCount (t : List Event) : Nat := t.count Event.dial

/-- The number of `select`s in a trace that took the `backoff` case. -/
def backoffCount (t : List Event) : Nat := t.count Event.backoffFired

/-- A failed dial after which the loop goes on: `err != nil` and `shouldRetry(res)`. -/
def retryable (o : DialOutcome) : Bool :=
  match o with
  | .ok _ _ => false
  | .fail res => shouldRetry res

/-! ## The operations of Client -/

/-- The constructor `New`.  The argument `first` is what the first call of the
configurer returns; `run` is the environment of the call of `connectWithRetry`.
The fresh `Client` holds the zero values of Go, so its state is `stateRunning`
and its `acceptErr` is `nil`. -/
def New (env : Env) (first : Except Error Config) (run : Run) (fuel : Nat) :
    Option (Except Error Client) :=
  match first with
  | .error err => some (.error err)
  | .ok config =>
    let cl : Client := ⟨"", "", "", "", ⟨0, 0⟩, none, stateRunning, false, none⟩
    let cl := setConfig env cl config
    match connectWithRetry env run fuel cl with
    | none => none
    | some (cl, r) =>
      match r.err with
      | some err => some (.error err)
      | none => some (.ok { cl with url := r.url, session := some ⟨r.conn, 0, false⟩ })

/-- The method `URL`. -/
def URL (c : Client) : String := c.url

/-- What a call of `Accept` returns and does: the client afterwards, the returned
pair, how often `c.session.Accept()` was called and how many `reconnect`
goroutines were launched. -/
structure AcceptResult where
  c : Client
  conn : Option Nat
  err : Option Error
  sessionAccepts : Nat
  launched : Nat
  deriving DecidableEq, Repr

/-- The method `Accept`.  The argument `stream` is what `c.session.Accept()`
returns if it is called: a stream, or `none` for an error. -/
def Accept (c : Client) (stream : Option Nat) : AcceptResult :=
  if c.closed then
    ⟨c, none, some ErrClientClosed, 0, 0⟩
  else if c.state = stateBroken ∨ c.state = stateClosed then
    ⟨c, none, c.acceptErr, 0, 0⟩
  else
    match stream with
    | none =>
      ⟨{ c with state := stateBroken, acceptErr := some ErrClientReconnecting },
        none, some ErrClientReconnecting, 1, 1⟩
    | some st => ⟨c, some st, none, 1, 0⟩

/-- What a call of `Close` returns and does: the client afterwards, the returned
error and how many goroutines were launched. -/
structure CloseResult where
  c : Client
  err : Option Error
  launched : Nat
  deriving DecidableEq, Repr

/-- The method `Close`: the first call closes the channel `c.closed` and launches the
goroutine `closeGoroutine`; later calls do nothing. -/
def Close (c : Client) : CloseResult :=
  if c.closed then ⟨c, none, 0⟩
  else ⟨{ c with closed := true }, none, 1⟩

/-- The body of the goroutine launched by `Close`. -/
def closeGoroutine (c : Client) : Client :=
  { c with
    acceptErr := some ErrClientClosed
    session := c.session.map fun s => { s with closed := true } }

/-- The method `reconnect`; the result is `none` when `connectWithRetry` is still
running when the fuel is used up. -/
def reconnect (env : Env) (run : Run) (fuel : Nat) (c : Client) : Option Client :=
  match connectWithRetry env run fuel c with
  | none => none
  | some (c, r) =>
    match r.err with
    | some _ => some { c with acceptErr := some ErrRetryFailed }
    | none =>
      let c :=
        match c.session with
        | some _ => { c with session := none }
        | none => c
      some { c with
        session := some ⟨r.conn, 4 * 1024, false⟩
        url := r.url
        state := stateRunning
        acceptErr := none }

/-! ## The client as a transition system -/

/-- A client together with the goroutines that were launched and have not run
yet, and the number of calls of `Close` so far. -/
structure System where
  c : Client
  closers : Nat
  reconnects : Nat
  closeCalls : Nat
  deriving DecidableEq, Repr

/-- The atomic steps: a call of `Accept` (with what the session would return), a
call of `Close`, a run of the goroutine launched by `Close`, and a run of a
launched `reconnect` (with the environment of its `connectWithRetry`). -/
inductive Action
  | accept (stream : Option Nat)
  | close
  | closeGoroutine
  | reconnect (run : Run) (fuel : Nat)

/-- One step; `none` when the action cannot happen: no such goroutine is waiting,
or the `reconnect` does not finish within its fuel. -/
def step (env : Env) (s : System) : Action → Option System
  | .accept stream =>
    let r := Accept s.c stream
    some { s with c := r.c, reconnects := s.reconnects + r.launched }
  | .close =>
    let r := Close s.c
    some { s with c := r.c, closers := s.closers + r.launched,
                  closeCalls := s.closeCalls + 1 }
  | .closeGoroutine =>
    if s.closers = 0 then none
    else some { s with c := closeGoroutine s.c, closers := s.closers - 1 }
  | .reconnect run fuel =>
    if s.reconnects = 0 then none
    else (reconnect env run fuel s.c).map fun c =>
      { s with c := c, reconnects := s.reconnects - 1 }

/-- A sequence of steps. -/
def exec (env : Env) : System → List Action → Option System
  | s, [] => some s
  | s, a :: as =>
    match step env s a with
    | none => none
    | some s1 => exec env s1 as

/-- The states a client can be in: those reached by some steps from a client that
`New` returned. -/
def Reachable (env : Env) (s : System) : Prop :=
  ∃ first run fuel c0 acts,
    New env first run fuel = some (.ok c0) ∧ exec env ⟨c0, 0, 0, 0⟩ acts = some s

/-- The facts that every step preserves: at most one `reconnect` is waiting; when
one is, the state is broken; `acceptErr` is non-nil unless the state is running;
and the channel `closed` is closed once `Close` has been called. -/
structure Inv (s : System) : Prop where
  single : s.reconnects ≤ 1
  broken : 1 ≤ s.reconnects → s.c.state = stateBroken
  err : s.c.state ≠ stateRunning → s.c.acceptErr ≠ none
  closed : 1 ≤ s.closeCalls → s.c.closed = true

/-! ## Concrete environments -/

/-- An environment in which every token is usable. -/
def env0 : Env := ⟨fun _ => true, fun a => a, fun r => r, fun _ d => 2 * d⟩

/-- A response with the given status whose headers all read `url`. -/
def response (status : Int) (url : String) : Response := ⟨status, fun _ => url⟩

/-- An environment of `connectWithRetry`: the dials before number `n` fail with the
statuses of `failures` (503 when the list is too short), dial number `n` succeeds
with connection `n` and URL `url`, and every `select` takes the `backoff` case. -/
def runOf (failures : List Int) (url : String) : Run :=
  { configurer := .error (.other 0)
    dial := fun i =>
      if i < failures.length then .fail (some (response (failures.getD i 503) ""))
      else .ok i (response 101 url)
    wait := fun _ => .backoff }

/-- An environment of `connectWithRetry` in which every dial fails with status 503
and the second `select` takes the `maxTimer` case. -/
def runTimeout : Run :=
  { configurer := .error (.other 0)
    dial := fun _ => .fail (some (response 503 ""))
    wait := fun j => if j = 1 then .maxTimer else .backoff }

/-- The configuration used in the examples: 10ms and 100ms. -/
def config0 : Config := ⟨"id", "wss://tunnel", "token", ⟨10000000, 100000000⟩⟩

/-- The client `New` returns when the first dial succeeds with URL `"u0"`. -/
def client0 : Client :=
  ⟨"id", "wss://tunnel", "token", "u0", ⟨10000000, 100000000⟩, some ⟨some 0, 0, false⟩,
    stateRunning, false, none⟩


/-! ## Truncating division by 100 -/

theorem tdiv_hundred (s : Int) :
    (0 ≤ s ∧ s.tdiv 100 = s / 100) ∨ (s < 0 ∧ s.tdiv 100 = -((-s) / 100)) := by
  rcases Int.lt_or_le s 0 with h | h
  · right
    refine ⟨h, ?_⟩
    have h1 : s = -(-s) := by omega
    have h2 : (-s).tdiv 100 = (-s) / 100 := Int.tdiv_eq_ediv (by omega) (by omega)
    rw [← h2, ← Int.neg_tdiv, Int.neg_neg]
  · left
    exact ⟨h, Int.tdiv_eq_ediv h (by omega)⟩

theorem shouldRetry_some_false (r : Response) :
    shouldRetry (some r) = false ↔
      (200 ≤ r.StatusCode ∧ r.StatusCode ≤ 299) ∨
      (400 ≤ r.StatusCode ∧ r.StatusCode ≤ 499) := by
  simp only [shouldRetry]
  rcases tdiv_hundred r.StatusCode with ⟨h0, h⟩ | ⟨h0, h⟩
  · rw [h]
    simp
    omega
  · rw [h]
    simp
    omega

theorem retryable_fail {o : DialOutcome} (h : retryable o = true) :
    ∃ res, o = .fail res ∧ shouldRetry res = true := by
  cases o with
  | ok conn res => simp [retryable] at h
  | fail res => exact ⟨res, rfl, h⟩

/-! ## The retry loop -/

theorem dialLoop_success (env : Env) (run : Run) (retry : RetryConfig) :
    ∀ (fuel n : Nat) (st : LoopState) (conn : Nat) (res : Response),
      (∀ i, i < n → retryable (run.dial (st.dials + i)) = true) →
      run.dial (st.dials + n) = .ok conn res →
      (∀ j, 2 * j < n → run.wait (st.waits + j) = .backoff) →
      n / 2 < fuel →
      ∃ t, dialLoop env run retry fuel st =
            some ⟨some conn, res.Header "x-websocktunnel-client-url", none, t⟩ ∧
          dialCount t = dialCount st.trace + (n + 1) ∧
          backoffCount t = backoffCount st.trace + (n + 1) / 2 := by
  intro fuel
  induction fuel with
  | zero => intro n st conn res _ _ _ h; omega
  | succ fuel ih =>
    intro n st conn res hfail hok hwait hfuel
    match n with
    | 0 =>
      refine ⟨st.trace ++ [.dial], ?_, ?_, ?_⟩
      · have hok0 : run.dial st.dials = .ok conn res := by simpa using hok
        simp [dialLoop, hok0]
      · simp [dialCount]
      · simp [backoffCount]
    | 1 =>
      obtain ⟨r0, h0, hr0⟩ := retryable_fail (hfail 0 (by omega))
      have hw : run.wait st.waits = .backoff := by simpa using hwait 0 (by omega)
      refine ⟨st.trace ++ [.dial, .backoffFired, .dial], ?_, ?_, ?_⟩
      · simp at h0
        simp [dialLoop, h0, hr0, hw, hok]
      · simp [dialCount, List.count_cons]
      · simp [backoffCount, List.count_cons]
    | m + 2 =>
      obtain ⟨r0, h0, hr0⟩ := retryable_fail (hfail 0 (by omega))
      obtain ⟨r1, h1, hr1⟩ := retryable_fail (hfail 1 (by omega))
      have hw : run.wait st.waits = .backoff := by simpa using hwait 0 (by omega)
      simp at h0
      obtain ⟨t, ht, hd, hb⟩ := ih m
        { dials := st.dials + 2
          waits := st.waits + 1
          currentDelay := env.nextDelay retry st.currentDelay
          trace := st.trace ++ [.dial, .backoffFired, .dial,
            .rearm (env.nextDelay retry st.currentDelay)] } conn res
        (by
          intro i hi
          have := hfail (i + 2) (by omega)
          simpa [Nat.add_assoc, Nat.add_comm 2 i] using this)
        (by simpa [Nat.add_assoc, Nat.add_comm 2 m] using hok)
        (by
          intro j hj
          have := hwait (j + 1) (by omega)
          simpa [Nat.add_assoc, Nat.add_comm 1 j] using this)
        (by omega)
      refine ⟨t, ?_, ?_, ?_⟩
      · simp [dialLoop, h0, hr0, hw, h1, hr1, ht]
      · rw [hd]
        simp [dialCount, List.count_cons]
        omega
      · rw [hb]
        simp [backoffCount, List.count_cons]
        omega

theorem dialLoop_all_retryable (env : Env) (run : Run) (retry : RetryConfig)
    (hall : ∀ i, retryable (run.dial i) = true) :
    ∀ (fuel : Nat) (st : LoopState) (r : ConnectResult),
      dialLoop env run retry fuel st = some r →
      r.conn = none ∧ r.err = some ErrRetryTimedOut ∧
        r.trace.getLast? = some Event.deadline ∧
        ∃ j, st.waits ≤ j ∧ run.wait j = .maxTimer := by
  intro fuel
  induction fuel with
  | zero => intro st r h; simp [dialLoop] at h
  | succ fuel ih =>
    intro st r h
    obtain ⟨r0, h0, hr0⟩ := retryable_fail (hall st.dials)
    obtain ⟨r1, h1, hr1⟩ := retryable_fail (hall (st.dials + 1))
    cases hw : run.wait st.waits with
    | maxTimer =>
      simp [dialLoop, h0, hr0, hw] at h
      subst h
      refine ⟨rfl, rfl, ?_, st.waits, Nat.le_refl _, hw⟩
      simp [List.getLast?_append]
    | backoff =>
      simp [dialLoop, h0, hr0, hw, h1, hr1] at h
      obtain ⟨hc, he, hl, j, hj, hjw⟩ := ih _ r h
      exact ⟨hc, he, hl, j, by simp at hj; omega, hjw⟩

theorem dialLoop_deadline (env : Env) (run : Run) (retry : RetryConfig)
    (hall : ∀ i, retryable (run.dial i) = true) (j : Nat)
    (hj : run.wait j = .maxTimer) :
    ∀ (fuel : Nat) (st : LoopState), st.waits ≤ j → j - st.waits < fuel →
      (dialLoop env run retry fuel st).isSome = true := by
  intro fuel
  induction fuel with
  | zero => intro st _ h; omega
  | succ fuel ih =>
    intro st hle hlt
    obtain ⟨r0, h0, hr0⟩ := retryable_fail (hall st.dials)
    obtain ⟨r1, h1, hr1⟩ := retryable_fail (hall (st.dials + 1))
    cases hw : run.wait st.waits with
    | maxTimer => simp [dialLoop, h0, hr0, hw]
    | backoff =>
      have hne : st.waits ≠ j := by
        intro heq
        rw [heq, hj] at hw
        cases hw
      simp only [dialLoop, h0, hr0, hw, h1, hr1]
      simp
      exact ih _ (by simp; omega) (by simp; omega)

/-! ## Claims about the classification and the retry loop -/

/-- C4: `shouldRetry` returns true for a missing response; for a response with
status code `s` it returns false exactly when `200 ≤ s ≤ 299` or `400 ≤ s ≤ 499`,
and true for every other `s`; and a response that `isAuthError` accepts (status
401) is never retryable. -/
theorem shouldRetry_spec :
    shouldRetry none = true ∧
    (∀ r : Response, shouldRetry (some r) = false ↔
      (200 ≤ r.StatusCode ∧ r.StatusCode ≤ 299) ∨
      (400 ≤ r.StatusCode ∧ r.StatusCode ≤ 499)) ∧
    (∀ r : Response, shouldRetry (some r) = true ↔
      ¬ ((200 ≤ r.StatusCode ∧ r.StatusCode ≤ 299) ∨
         (400 ≤ r.StatusCode ∧ r.StatusCode ≤ 499))) ∧
    (∀ r : Option Response, isAuthError r = true → shouldRetry r = false) := by
  refine ⟨rfl, shouldRetry_some_false, ?_, ?_⟩
  · intro r
    rw [← shouldRetry_some_false]
    simp
  · intro r h
    cases r with
    | none => simp [isAuthError] at h
    | some r =>
      rw [shouldRetry_some_false]
      simp [isAuthError] at h
      omega

/-- C4 at the statuses 401 and 503: the first is an auth error and is not
retried, the second is retried. -/
theorem shouldRetry_spec_witness :
    isAuthError (some (response 401 "")) = true ∧
    shouldRetry (some (response 401 "")) = false ∧
    shouldRetry (some (response 503 "")) = true :=
  ⟨rfl, shouldRetry_spec.2.2.2 (some (response 401 "")) rfl,
    (shouldRetry_spec.2.2.1 (response 503 "")).2 (by decide)⟩

/-- C1 (evaluation of the code where the claim fails): the first dial fails with
503, the backoff timer fires, and the dial made in the `backoff` case fails with
401.  `connectWithRetry` returns `ErrRetryFailed`, not `ErrAuthFailed`, after these
two dials. -/
theorem connectWithRetry_unauthorized_after_backoff :
    (match (runOf [503, 401] "u").dial 1 with
      | .fail res => isAuthError res
      | .ok _ _ => false) = true ∧
    (connectWithRetry env0 (runOf [503, 401] "u") 1 client0).map (fun p => p.2) =
      some ⟨none, "", some ErrRetryFailed, [.dial, .backoffFired, .dial]⟩ :=
  ⟨rfl, rfl⟩

/-- C2: with a usable token and only retryable dial failures, whenever
`connectWithRetry` returns it returns `ErrRetryTimedOut` (so neither
`ErrRetryFailed` nor `ErrAuthFailed`), with no connection, and the last thing it
did was a `select` that took the deadline timer; if some `select` takes the
deadline timer it does return, given enough iterations; and if no `select` ever
takes the deadline timer it never returns. -/
theorem connectWithRetry_all_retryable (env : Env) (run : Run) (c : Client)
    (htok : env.IsTokenUsable c.token = true)
    (hall : ∀ i, retryable (run.dial i) = true) :
    (∀ fuel c1 r, connectWithRetry env run fuel c = some (c1, r) →
      r.err = some ErrRetryTimedOut ∧ r.err ≠ some ErrRetryFailed ∧
        r.err ≠ some ErrAuthFailed ∧ r.conn = none ∧
        r.trace.getLast? = some Event.deadline) ∧
    (∀ j, run.wait j = .maxTimer → ∀ fuel, j < fuel →
      ∃ c1 r, connectWithRetry env run fuel c = some (c1, r) ∧
        r.err = some ErrRetryTimedOut) ∧
    ((∀ j, run.wait j = .backoff) → ∀ fuel, connectWithRetry env run fuel c = none) := by
  have key : ∀ fuel c1 r, connectWithRetry env run fuel c = some (c1, r) →
      r.conn = none ∧ r.err = some ErrRetryTimedOut ∧
        r.trace.getLast? = some Event.deadline ∧ ∃ j, run.wait j = .maxTimer := by
    intro fuel c1 r h
    simp only [connectWithRetry, htok] at h
    simp at h
    obtain ⟨ha, -⟩ := h
    obtain ⟨h1, h2, h3, j, -, hj⟩ := dialLoop_all_retryable env run c.retry hall _ _ _ ha
    exact ⟨h1, h2, h3, j, hj⟩
  refine ⟨?_, ?_, ?_⟩
  · intro fuel c1 r h
    obtain ⟨h1, h2, h3, -⟩ := key fuel c1 r h
    refine ⟨h2, ?_, ?_, h1, h3⟩ <;> simp [h2]
  · intro j hj fuel hlt
    have hs := dialLoop_deadline env run c.retry hall j hj fuel
      ⟨0, 0, c.retry.InitialDelay, []⟩ (Nat.zero_le _) (by simpa using hlt)
    obtain ⟨r, hr⟩ := Option.isSome_iff_exists.mp hs
    have hc : connectWithRetry env run fuel c = some (c, r) := by
      simp [connectWithRetry, htok, hr]
    exact ⟨c, r, hc, (key fuel c r hc).2.1⟩
  · intro hb fuel
    cases h : connectWithRetry env run fuel c with
    | none => rfl
    | some p =>
      obtain ⟨-, -, -, j, hj⟩ := key fuel p.1 p.2 h
      rw [hb j] at hj
      cases hj

/-- C2 on a run in which every dial fails with 503 and the second `select` takes
the deadline timer. -/
theorem connectWithRetry_all_retryable_witness :
    ∃ c1 r, connectWithRetry env0 runTimeout 2 client0 = some (c1, r) ∧
      r.err = some ErrRetryTimedOut :=
  (connectWithRetry_all_retryable env0 runTimeout client0 rfl (fun _ => rfl)).2.1
    1 rfl 2 (by decide)

/-- C3: if the first `n` dials fail with retryable outcomes, dial number `n + 1`
succeeds, and every `select` before it takes the backoff timer (the `j`-th
`select` follows dial number `2 * j + 1`), then `connectWithRetry` returns the
connection of the successful dial with a nil error after exactly `n + 1` dials,
and the URL it returns is the `x-websocktunnel-client-url` header of the
successful response.  The dials happen only if the configurer, when it is
called, does not fail. -/
theorem connectWithRetry_success_after_failures (env : Env) (run : Run) (c : Client)
    (n conn : Nat) (res : Response)
    (hcfg : env.IsTokenUsable c.token = false → ∃ config, run.configurer = .ok config)
    (hfail : ∀ i, i < n → retryable (run.dial i) = true)
    (hok : run.dial n = .ok conn res)
    (hwait : ∀ j, 2 * j < n → run.wait j = .backoff)
    (fuel : Nat) (hfuel : n / 2 < fuel) :
    ∃ c1 r, connectWithRetry env run fuel c = some (c1, r) ∧
      r.conn = some conn ∧ r.err = none ∧
      r.url = res.Header "x-websocktunnel-client-url" ∧
      dialCount r.trace = n + 1 := by
  have loop : ∀ retry d, ∃ t, dialLoop env run retry fuel ⟨0, 0, d, []⟩ =
        some ⟨some conn, res.Header "x-websocktunnel-client-url", none, t⟩ ∧
      dialCount t = n + 1 := by
    intro retry d
    obtain ⟨t, ht, hd, -⟩ := dialLoop_success env run retry fuel n ⟨0, 0, d, []⟩ conn res
      (by simpa using hfail) (by simpa using hok) (by simpa using hwait) hfuel
    exact ⟨t, ht, by simpa [dialCount] using hd⟩
  cases htok : env.IsTokenUsable c.token with
  | true =>
    obtain ⟨t, ht, hd⟩ := loop c.retry c.retry.InitialDelay
    exact ⟨c, ⟨some conn, res.Header "x-websocktunnel-client-url", none, t⟩,
      by simp [connectWithRetry, htok, ht], rfl, rfl, rfl, hd⟩
  | false =>
    obtain ⟨config, hconfig⟩ := hcfg htok
    obtain ⟨t, ht, hd⟩ := loop (setConfig env c config).retry
      (setConfig env c config).retry.InitialDelay
    exact ⟨setConfig env c config,
      ⟨some conn, res.Header "x-websocktunnel-client-url", none, t⟩,
      by simp [connectWithRetry, htok, hconfig, ht], rfl, rfl, rfl, hd⟩

/-- C3 for `n = 3`: three failures with status 503 and then a success give exactly
4 dials. -/
theorem connectWithRetry_success_after_failures_witness :
    (∀ i, i < 3 → retryable ((runOf [503, 503, 503] "u").dial i) = true) ∧
    ∃ c1 r, connectWithRetry env0 (runOf [503, 503, 503] "u") 2 client0 = some (c1, r) ∧
      r.conn = some 3 ∧ r.err = none ∧ r.url = "u" ∧ dialCount r.trace = 3 + 1 :=
  ⟨by decide,
    connectWithRetry_success_after_failures env0 (runOf [503, 503, 503] "u") client0
      3 3 (response 101 "u") (fun h => by cases h) (by decide) rfl (fun _ _ => rfl)
      2 (by decide)⟩

/-- C10 (evaluation of the code where the claim fails): three failures with status
503 and then a success, the backoff timer firing at every `select`.  The second
and the third dial follow each other with no `select` in between, and the 4
dials come with 2 expiries of the backoff timer. -/
theorem connectWithRetry_dials_without_wait :
    (connectWithRetry env0 (runOf [503, 503, 503] "u") 2 client0).map
        (fun p => p.2.trace) =
      some [.dial, .backoffFired, .dial, .rearm 20000000, .dial, .backoffFired, .dial] ∧
    dialCount [.dial, .backoffFired, .dial, .rearm 20000000, .dial, .backoffFired,
      .dial] = 4 ∧
    backoffCount [.dial, .backoffFired, .dial, .rearm 20000000, .dial, .backoffFired,
      .dial] = 2 :=
  ⟨rfl, rfl, rfl⟩

/-! ## The client: frame lemmas and the invariant -/

theorem connectWithRetry_frame {env : Env} {run : Run} {fuel : Nat} {c c1 : Client}
    {r : ConnectResult} (h : connectWithRetry env run fuel c = some (c1, r)) :
    c1.url = c.url ∧ c1.session = c.session ∧ c1.state = c.state ∧
      c1.closed = c.closed ∧ c1.acceptErr = c.acceptErr := by
  unfold connectWithRetry at h
  split at h
  · split at h
    · simp at h
      obtain ⟨rfl, -⟩ := h
      simp
    · simp at h
      obtain ⟨-, rfl, -⟩ := h
      simp [setConfig]
  · simp at h
    obtain ⟨-, rfl⟩ := h
    simp

theorem reconnect_cases {env : Env} {run : Run} {fuel : Nat} {c c2 : Client}
    (h : reconnect env run fuel c = some c2) :
    ∃ c1 r, connectWithRetry env run fuel c = some (c1, r) ∧
      ((r.err ≠ none ∧ c2 = { c1 with acceptErr := some ErrRetryFailed }) ∨
       (r.err = none ∧ c2.state = stateRunning ∧ c2.acceptErr = none ∧
          c2.closed = c1.closed ∧ c2.url = r.url ∧
          c2.session = some ⟨r.conn, 4 * 1024, false⟩)) := by
  unfold reconnect at h
  cases hc : connectWithRetry env run fuel c with
  | none => simp [hc] at h
  | some p =>
    obtain ⟨c1, r⟩ := p
    refine ⟨c1, r, rfl, ?_⟩
    simp only [hc] at h
    cases he : r.err with
    | some e =>
      left
      simp only [he] at h
      simp at h
      exact ⟨by simp, h.symm⟩
    | none =>
      right
      simp only [he] at h
      simp at h
      subst h
      cases hs : c1.session <;> simp

theorem Inv_step {env : Env} {s s1 : System} {a : Action} (hs : Inv s)
    (h : step env s a = some s1) : Inv s1 := by
  obtain ⟨h1, h2, h3, h4⟩ := hs
  cases a with
  | accept stream =>
    simp only [step, Option.some.injEq] at h
    subst h
    by_cases hcl : s.c.closed = true
    · simp only [Accept, hcl, if_true]
      exact ⟨by simpa using h1, by simpa using h2, h3, fun _ => hcl⟩
    · by_cases hst : s.c.state = stateBroken ∨ s.c.state = stateClosed
      · simp only [Accept, hcl, hst, if_true]
        exact ⟨by simpa using h1, by simpa using h2, h3, by simpa using h4⟩
      · have hrun : s.c.state = stateRunning := by
          cases hstate : s.c.state <;> simp [hstate] at hst ⊢
        have h0 : s.reconnects = 0 := by
          by_contra hne
          have := h2 (by omega)
          rw [hrun] at this
          cases this
        cases stream with
        | none =>
          simp only [Accept, hcl, hst, if_false]
          refine ⟨by simp [h0], fun _ => rfl, by simp, ?_⟩
          intro hc
          exact absurd (h4 hc) hcl
        | some st =>
          simp only [Accept, hcl, hst, if_false]
          exact ⟨by simpa using h1, by simpa using h2, h3, by simpa using h4⟩
  | close =>
    simp only [step, Option.some.injEq] at h
    subst h
    by_cases hcl : s.c.closed = true
    · simp only [Close, hcl, if_true]
      exact ⟨h1, h2, h3, fun _ => hcl⟩
    · simp only [Close, hcl, if_false]
      exact ⟨h1, h2, h3, fun _ => rfl⟩
  | closeGoroutine =>
    simp only [step] at h
    split at h
    · cases h
    · simp only [Option.some.injEq] at h
      subst h
      exact ⟨h1, h2, by simp [closeGoroutine], h4⟩
  | reconnect run fuel =>
    simp only [step] at h
    split at h
    · cases h
    · rename_i hne
      simp only [Option.map_eq_some'] at h
      obtain ⟨c2, hc2, rfl⟩ := h
      obtain ⟨c1, r, hc, hcase⟩ := reconnect_cases hc2
      obtain ⟨-, -, hst, hcl, -⟩ := connectWithRetry_frame hc
      have hzero : s.reconnects - 1 = 0 := by omega
      rcases hcase with ⟨-, rfl⟩ | ⟨-, hrun, -, hcl2, -, -⟩
      · refine ⟨by simp [hzero], ?_, by simp, ?_⟩
        · intro hge
          simp [hzero] at hge
        · intro hge
          simpa [hcl] using h4 hge
      · refine ⟨by simp [hzero], ?_, ?_, ?_⟩
        · intro hge
          simp [hzero] at hge
        · intro hn
          exact absurd hrun hn
        · intro hge
          show c2.closed = true
          rw [hcl2, hcl]
          exact h4 hge

theorem Inv_exec {env : Env} :
    ∀ (acts : List Action) (s s1 : System), Inv s → exec env s acts = some s1 → Inv s1 := by
  intro acts
  induction acts with
  | nil =>
    intro s s1 hs h
    simp only [exec, Option.some.injEq] at h
    exact h ▸ hs
  | cons a acts ih =>
    intro s s1 hs h
    simp only [exec] at h
    cases hstep : step env s a with
    | none => simp [hstep] at h
    | some s2 =>
      simp only [hstep] at h
      exact ih s2 s1 (Inv_step hs hstep) h

theorem New_state {env : Env} {first : Except Error Config} {run : Run} {fuel : Nat}
    {c0 : Client} (h : New env first run fuel = some (.ok c0)) :
    c0.state = stateRunning ∧ c0.acceptErr = none ∧ c0.closed = false := by
  unfold New at h
  cases first with
  | error e => simp at h
  | ok config =>
    simp only at h
    cases hc : connectWithRetry env run fuel
        (setConfig env ⟨"", "", "", "", ⟨0, 0⟩, none, stateRunning, false, none⟩ config) with
    | none => simp [hc] at h
    | some p =>
      obtain ⟨c1, r⟩ := p
      obtain ⟨-, -, hst, hcl, herr⟩ := connectWithRetry_frame hc
      simp only [hc] at h
      cases he : r.err with
      | some e => simp [he] at h
      | none =>
        simp only [he, Option.some.injEq, Except.ok.injEq] at h
        subst h
        simp [setConfig] at hst hcl herr
        exact ⟨hst, herr, hcl⟩

theorem Reachable_Inv {env : Env} {s : System} (h : Reachable env s) : Inv s := by
  obtain ⟨first, run, fuel, c0, acts, hnew, hexec⟩ := h
  obtain ⟨hst, herr, hcl⟩ := New_state hnew
  refine Inv_exec acts ⟨c0, 0, 0, 0⟩ s ⟨Nat.zero_le _, ?_, ?_, ?_⟩ hexec
  · intro h
    simp at h
  · intro hn
    exact absurd hst hn
  · intro h
    simp at h

theorem Reachable_client0 (acts : List Action) {s : System}
    (h : exec env0 ⟨client0, 0, 0, 0⟩ acts = some s) : Reachable env0 s :=
  ⟨.ok config0, runOf [] "u0", 1, client0, acts, rfl, h⟩

/-! ## Claims about the client -/

/-- C5: in every reachable state in which `Close` has been called at least once,
whatever steps came before or after that call, `Accept` returns
`(nil, ErrClientClosed)`, leaves the client (so its state and `acceptErr`) as it
is, does not call the session's `Accept` and launches no `reconnect`. -/
theorem Accept_after_Close (env : Env) (s : System) (hs : Reachable env s)
    (hclose : 1 ≤ s.closeCalls) (stream : Option Nat) :
    Accept s.c stream = ⟨s.c, none, some ErrClientClosed, 0, 0⟩ := by
  have hcl := (Reachable_Inv hs).closed hclose
  simp [Accept, hcl]

/-- C5 in the state reached by a failed `Accept`, a `Close`, the goroutine of
`Close` and a successful `reconnect`: the state is running again, and `Accept`
still returns `ErrClientClosed`. -/
theorem Accept_after_Close_witness :
    exec env0 ⟨client0, 0, 0, 0⟩
        [.accept none, .close, .closeGoroutine, .reconnect (runOf [] "u1") 1] =
      some ⟨{ client0 with url := "u1", session := some ⟨some 0, 4096, false⟩,
                           closed := true }, 0, 0, 1⟩ ∧
    Accept { client0 with url := "u1", session := some ⟨some 0, 4096, false⟩,
                          closed := true } (some 7) =
      ⟨{ client0 with url := "u1", session := some ⟨some 0, 4096, false⟩,
                      closed := true }, none, some ErrClientClosed, 0, 0⟩ :=
  ⟨rfl, Accept_after_Close env0
    ⟨{ client0 with url := "u1", session := some ⟨some 0, 4096, false⟩,
                    closed := true }, 0, 0, 1⟩
    (Reachable_client0
      [.accept none, .close, .closeGoroutine, .reconnect (runOf [] "u1") 1] rfl)
    (by decide) (some 7)⟩

/-- C6 as stated fails: after a failed `Accept` and a `Close` the state is broken
and the recorded `acceptErr` is `ErrClientReconnecting`, but `Accept` returns
`ErrClientClosed`. -/
theorem Accept_broken_after_Close :
    New env0 (.ok config0) (runOf [] "u0") 1 = some (.ok client0) ∧
    exec env0 ⟨client0, 0, 0, 0⟩ [.accept none, .close] =
      some ⟨{ client0 with state := stateBroken, acceptErr := some ErrClientReconnecting,
                           closed := true }, 1, 1, 1⟩ ∧
    (Accept { client0 with state := stateBroken, acceptErr := some ErrClientReconnecting,
                           closed := true } none).err = some ErrClientClosed ∧
    some ErrClientClosed ≠
      ({ client0 with state := stateBroken, acceptErr := some ErrClientReconnecting,
                      closed := true } : Client).acceptErr :=
  ⟨rfl, rfl, rfl, by decide⟩

/-- C6 (amended): an `Accept` that calls the session's `Accept` in state running
and gets an error sets the state to broken, records `ErrClientReconnecting`,
returns it and launches exactly one `reconnect`; an `Accept` in state broken
launches none, does not call the session, leaves the client as it is and returns
the recorded `acceptErr`, or `ErrClientClosed` when `Close` has been called.  So
in every reachable state at most one `reconnect` is launched and unfinished, and
when one is, the state is broken. -/
theorem Accept_single_flight (env : Env) :
    (∀ c : Client, c.state = stateRunning → (Accept c none).sessionAccepts = 1 →
      Accept c none =
        ⟨{ c with state := stateBroken, acceptErr := some ErrClientReconnecting },
          none, some ErrClientReconnecting, 1, 1⟩) ∧
    (∀ (c : Client) (stream : Option Nat), c.state = stateBroken →
      Accept c stream =
        ⟨c, none, if c.closed then some ErrClientClosed else c.acceptErr, 0, 0⟩) ∧
    (∀ s : System, Reachable env s →
      s.reconnects ≤ 1 ∧ (1 ≤ s.reconnects → s.c.state = stateBroken)) := by
  refine ⟨?_, ?_, ?_⟩
  · intro c hrun hcall
    by_cases hcl : c.closed = true
    · simp [Accept, hcl] at hcall
    · simp [Accept, hcl, hrun]
  · intro c stream hb
    by_cases hcl : c.closed = true
    · simp [Accept, hcl]
    · simp [Accept, hcl, hb]
  · intro s hs
    exact ⟨(Reachable_Inv hs).single, (Reachable_Inv hs).broken⟩

/-- C6 (amended) on the client `New` returned, and in the state after a failed
`Accept`, where one `reconnect` is waiting. -/
theorem Accept_single_flight_witness :
    Accept client0 none =
      ⟨{ client0 with state := stateBroken, acceptErr := some ErrClientReconnecting },
        none, some ErrClientReconnecting, 1, 1⟩ ∧
    ((1 : Nat) ≤ 1 ∧ (1 ≤ 1 →
      ({ client0 with state := stateBroken,
                      acceptErr := some ErrClientReconnecting } : Client).state =
        stateBroken)) :=
  ⟨(Accept_single_flight env0).1 client0 rfl rfl,
    (Accept_single_flight env0).2.2
      ⟨{ client0 with state := stateBroken, acceptErr := some ErrClientReconnecting },
        0, 1, 0⟩
      (Reachable_client0 [.accept none] rfl)⟩

/-- C7 (evaluation of the code where the claim fails): the session breaks, `Close`
is called and its goroutine runs, and then the launched `reconnect` succeeds.  No
goroutine is waiting any more, `Close` has been called, and the client is in
state running with a nil `acceptErr` and a new session that is open. -/
theorem reconnect_after_Close :
    New env0 (.ok config0) (runOf [] "u0") 1 = some (.ok client0) ∧
    exec env0 ⟨client0, 0, 0, 0⟩
        [.accept none, .close, .closeGoroutine, .reconnect (runOf [] "u1") 1] =
      some ⟨⟨"id", "wss://tunnel", "token", "u1", ⟨10000000, 100000000⟩,
        some ⟨some 0, 4096, false⟩, stateRunning, true, none⟩, 0, 0, 1⟩ ∧
    exec env0 ⟨client0, 0, 0, 0⟩ [.close, .closeGoroutine] =
      some ⟨⟨"id", "wss://tunnel", "token", "u0", ⟨10000000, 100000000⟩,
        some ⟨some 0, 0, true⟩, stateRunning, true, some ErrClientClosed⟩, 0, 0, 1⟩ :=
  ⟨rfl, rfl, rfl⟩

/-- C8: in every reachable state `acceptErr` is non-nil whenever the state is not
running; a step that takes `acceptErr` from non-nil to nil is a `reconnect` whose
`connectWithRetry` returned a nil error, and the same step sets the state to
running; and every such `reconnect` leaves `acceptErr` nil and the state
running. -/
theorem acceptErr_invariant (env : Env) (s : System) (hs : Reachable env s) :
    (s.c.state ≠ stateRunning → s.c.acceptErr ≠ none) ∧
    (∀ a s1, step env s a = some s1 → s.c.acceptErr ≠ none → s1.c.acceptErr = none →
      (∃ run fuel c1 r, a = .reconnect run fuel ∧
        connectWithRetry env run fuel s.c = some (c1, r) ∧ r.err = none) ∧
      s1.c.state = stateRunning) ∧
    (∀ run fuel s1 c1 r, step env s (.reconnect run fuel) = some s1 →
      connectWithRetry env run fuel s.c = some (c1, r) → r.err = none →
      s1.c.acceptErr = none ∧ s1.c.state = stateRunning) := by
  refine ⟨(Reachable_Inv hs).err, ?_, ?_⟩
  · intro a s1 hstep hpre hpost
    have hinv1 := Inv_step (Reachable_Inv hs) hstep
    have hrun : s1.c.state = stateRunning := by
      by_contra hn
      exact hinv1.err hn hpost
    refine ⟨?_, hrun⟩
    cases a with
    | accept stream =>
      simp only [step, Option.some.injEq] at hstep
      subst hstep
      exfalso
      revert hpost
      simp only [Accept]
      split
      · exact hpre
      · split
        · exact hpre
        · cases stream with
          | none => simp
          | some st => exact hpre
    | close =>
      simp only [step, Option.some.injEq] at hstep
      subst hstep
      exfalso
      revert hpost
      simp only [Close]
      split <;> exact hpre
    | closeGoroutine =>
      simp only [step] at hstep
      split at hstep
      · cases hstep
      · simp only [Option.some.injEq] at hstep
        subst hstep
        simp [closeGoroutine] at hpost
    | reconnect run fuel =>
      simp only [step] at hstep
      split at hstep
      · cases hstep
      · simp only [Option.map_eq_some'] at hstep
        obtain ⟨c2, hc2, rfl⟩ := hstep
        obtain ⟨c1, r, hc, hcase⟩ := reconnect_cases hc2
        rcases hcase with ⟨-, rfl⟩ | ⟨he, -⟩
        · simp at hpost
        · exact ⟨run, fuel, c1, r, rfl, hc, he⟩
  · intro run fuel s1 c1 r hstep hc he
    simp only [step] at hstep
    split at hstep
    · cases hstep
    · simp only [Option.map_eq_some'] at hstep
      obtain ⟨c2, hc2, rfl⟩ := hstep
      obtain ⟨c1', r', hc', hcase⟩ := reconnect_cases hc2
      rw [hc] at hc'
      simp only [Option.some.injEq, Prod.mk.injEq] at hc'
      obtain ⟨rfl, rfl⟩ := hc'
      rcases hcase with ⟨hne, -⟩ | ⟨-, hrun, herr, -⟩
      · exact absurd he hne
      · exact ⟨herr, hrun⟩

/-- C8 in the state after a failed `Accept`: the state is broken and `acceptErr`
is `ErrClientReconnecting`. -/
theorem acceptErr_invariant_witness :
    ({ client0 with state := stateBroken,
                    acceptErr := some ErrClientReconnecting } : Client).state ≠
        stateRunning ∧
    ({ client0 with state := stateBroken,
                    acceptErr := some ErrClientReconnecting } : Client).acceptErr ≠ none :=
  ⟨by decide,
    (acceptErr_invariant env0
      ⟨{ client0 with state := stateBroken, acceptErr := some ErrClientReconnecting },
        0, 1, 0⟩
      (Reachable_client0 [.accept none] rfl)).1 (by decide)⟩

/-- C9 as stated fails: the session breaks, `Close` is called, and the launched
`reconnect` fails (its dial gets a 404).  The state stays broken and `acceptErr`
is `ErrRetryFailed`, but the next `Accept` returns `ErrClientClosed`. -/
theorem Accept_after_failed_reconnect_and_Close :
    New env0 (.ok config0) (runOf [] "u0") 1 = some (.ok client0) ∧
    (connectWithRetry env0 (runOf [404] "u1") 1
        { client0 with state := stateBroken, acceptErr := some ErrClientReconnecting,
                       closed := true }).map (fun p => p.2.err) =
      some (some ErrRetryFailed) ∧
    exec env0 ⟨client0, 0, 0, 0⟩ [.accept none, .close, .reconnect (runOf [404] "u1") 1] =
      some ⟨{ client0 with state := stateBroken, acceptErr := some ErrRetryFailed,
                           closed := true }, 1, 0, 1⟩ ∧
    (Accept { client0 with state := stateBroken, acceptErr := some ErrRetryFailed,
                           closed := true } none).err = some ErrClientClosed ∧
    (some ErrClientClosed : Option Error) ≠ some ErrRetryFailed :=
  ⟨rfl, rfl, rfl, rfl, by decide⟩

/-- C9 (amended): when `reconnect` runs and `connectWithRetry` returns any error,
`reconnect` sets `acceptErr` to `ErrRetryFailed` and leaves the state, the session
and the published URL as they were; so from state broken the state stays broken
and the next `Accept` launches no `reconnect`, does not call the session, and
returns `ErrRetryFailed`, or `ErrClientClosed` when `Close` has been called. -/
theorem reconnect_failure (env : Env) (run : Run) (fuel : Nat) (c c1 : Client)
    (r : ConnectResult) (hc : connectWithRetry env run fuel c = some (c1, r))
    (herr : r.err ≠ none) :
    ∃ c2, reconnect env run fuel c = some c2 ∧
      c2.acceptErr = some ErrRetryFailed ∧ c2.state = c.state ∧
      c2.session = c.session ∧ URL c2 = URL c ∧ c2.closed = c.closed ∧
      (c.state = stateBroken → c2.state = stateBroken ∧
        ∀ stream, Accept c2 stream =
          ⟨c2, none, if c.closed then some ErrClientClosed else some ErrRetryFailed,
            0, 0⟩) := by
  obtain ⟨hurl, hsess, hst, hcl, -⟩ := connectWithRetry_frame hc
  obtain ⟨e, he⟩ := Option.ne_none_iff_exists'.mp herr
  refine ⟨{ c1 with acceptErr := some ErrRetryFailed }, ?_, rfl, hst, hsess, hurl, hcl, ?_⟩
  · simp [reconnect, hc, he]
  · intro hb
    refine ⟨by simp [hst, hb], ?_⟩
    intro stream
    by_cases hclosed : c.closed = true
    · simp [Accept, hcl, hclosed]
    · simp [Accept, hcl, hclosed, hst, hb]

/-- C9 (amended) on a broken client whose `reconnect` dials once and gets a 404:
`acceptErr` becomes `ErrRetryFailed`, the state stays broken, and the session and
the URL are those of the broken client. -/
theorem reconnect_failure_witness :
    ∃ c2, reconnect env0 (runOf [404] "u1") 1
        { client0 with state := stateBroken, acceptErr := some ErrClientReconnecting } =
          some c2 ∧
      c2.acceptErr = some ErrRetryFailed ∧ c2.state = stateBroken ∧
      c2.session = some ⟨some 0, 0, false⟩ ∧ URL c2 = "u0" ∧ c2.closed = false ∧
      (stateBroken = stateBroken → c2.state = stateBroken ∧
        ∀ stream, Accept c2 stream = ⟨c2, none, some ErrRetryFailed, 0, 0⟩) :=
  reconnect_failure env0 (runOf [404] "u1") 1
    { client0 with state := stateBroken, acceptErr := some ErrClientReconnecting }
    { client0 with state := stateBroken, acceptErr := some ErrClientReconnecting }
    ⟨none, "", some ErrRetryFailed, [.dial]⟩ rfl (by decide)

end client
